import Mathlib

/-
Verification of the permission/audit/gateway core of the echo-gateway server
(src/server.js), as a shallow embedding in Lean 4.

Conventions of the embedding:
- JS numbers holding timestamps and durations are modelled as `Nat`
  (they are produced by `Date.now()` and second counts, always non-negative).
- JS objects used as string-keyed maps (`state.permissions.granted`,
  `state.permissions.requests`) are modelled as association lists
  `List (String × α)` with `objInsert` mirroring property assignment
  (overwrite in place when the key exists, append otherwise) and
  `objDelete` mirroring the `delete` operator.
- `null`/`undefined` slots are modelled with `Option`; JS falsiness of a
  number `e` is `e = 0` (besides `null`), of a string `s` is `s = ""`.
- Node library functions that the repository calls but does not define
  (`path.normalize`, `JSON.stringify`) are passed in as function
  parameters; `path.sep` is fixed to the POSIX separator.
- Throwing a `McpError` is modelled with `Except McpErr`; a handler that
  throws before mutating leaves the state component untouched.
-/

set_option autoImplicit false

namespace EchoGateway

/-- Node's `path.sep`, fixed to the POSIX value used in the deployment
modelled here. -/
def pathSep : String := "/"

/-- Model of the JS library function `String.prototype.toLowerCase`,
character-wise on the underlying character list (the exclusion zones and
targets compared here are ASCII). -/
def jsToLower (s : String) : String := String.mk (s.data.map Char.toLower)

/-- Model of the JS library function `String.prototype.startsWith`:
`pre` is a string prefix of `s`. -/
def jsStartsWith (s pre : String) : Bool := pre.data.isPrefixOf s.data

/-- A `McpError` as thrown by the handlers: an error code plus a message. -/
structure McpErr where
  code : String
  message : String
deriving DecidableEq, Repr

/-- `new McpError(ErrorCode.InvalidParams, 'Protected resource')`. -/
def protectedResource : McpErr := ⟨"InvalidParams", "Protected resource"⟩

/-- `new McpError(ErrorCode.InvalidParams, 'Request not found')`. -/
def requestNotFound : McpErr := ⟨"InvalidParams", "Request not found"⟩

/-- `new McpError(ErrorCode.InvalidParams, 'Permission not found')`. -/
def permissionNotFound : McpErr := ⟨"InvalidParams", "Permission not found"⟩

/-- A pending permission request, as stored in `state.permissions.requests`:
`{action, target, requester, created}`. -/
structure Request where
  action : String
  target : String
  requester : String
  created : Nat
deriving DecidableEq, Repr

/-- A grant, as stored in `state.permissions.granted`:
`{...req, granter, granted, expires, allowed}`, with `revoked` stamped
later by `revoke_permission`. -/
structure Grant where
  action : String
  target : String
  requester : String
  created : Nat
  granter : String
  granted : Nat
  expires : Option Nat
  allowed : Bool
  revoked : Option Nat
deriving DecidableEq, Repr

/-- One entry of `state.permissions.audit`:
`{id, event, details, ts}`; the `details` object is modelled as a list of
key/value pairs. -/
structure AuditEntry where
  id : String
  event : String
  details : List (String × String)
  ts : Nat
deriving DecidableEq, Repr

/-- The `state.permissions` section of the global state (the only section
the claims are about). -/
structure Permissions where
  granted : List (String × Grant)
  requests : List (String × Request)
  audit : List AuditEntry
deriving DecidableEq, Repr

/-- The initial `state.permissions`: `{granted: {}, requests: {}, audit: []}`. -/
def initPerms : Permissions := ⟨[], [], []⟩

/-- JS object property assignment `m[k] = v`: overwrite in place when the
key is present, append at the end otherwise. -/
def objInsert {α : Type} (m : List (String × α)) (k : String) (v : α) :
    List (String × α) :=
  match m with
  | [] => [(k, v)]
  | (k', v') :: rest =>
    if k' == k then (k, v) :: rest else (k', v') :: objInsert rest k v

/-- JS `delete m[k]`. -/
def objDelete {α : Type} (m : List (String × α)) (k : String) :
    List (String × α) :=
  m.filter (fun p => p.1 != k)

/-- The statically configured `EXCLUSION_ZONES` array. -/
def EXCLUSION_ZONES : List String :=
  ["/windows", "/program files", "/system32", "c:\\windows", "c:\\program files"]

/-- `isExcluded(target)`: a falsy (empty) target is excluded; otherwise the
normalized, lower-cased target is compared against each zone by string
prefix. `norm` stands for Node's `path.normalize`. -/
def isExcluded (norm : String → String) (target : String) : Bool :=
  if target == "" then true
  else
    let n := jsToLower (norm target)
    EXCLUSION_ZONES.any (fun zone => jsStartsWith n (jsToLower zone))

/-- `audit(event, details)`: push `{id, event, details, ts}` and trim with
`slice(-500)` once the log exceeds 1000 entries. The fresh `id` and the
`Date.now()` timestamp are passed in. -/
def auditPush (id : String) (event : String) (details : List (String × String))
    (ts : Nat) (log : List AuditEntry) : List AuditEntry :=
  let l := log ++ [⟨id, event, details, ts⟩]
  if l.length > 1000 then l.drop (l.length - 500) else l

/-- The test `perm.expires && perm.expires < Date.now()`: a `null` (or
numerically falsy, i.e. zero) `expires` never counts as past. -/
def expiresIsPast (expires : Option Nat) (now : Nat) : Bool :=
  match expires with
  | none => false
  | some e => e != 0 && decide (e < now)

/-- `checkPermission(action, target, permId)` read against a `granted` map
at time `now`; `permId` is `Option String` so that a missing argument and
an empty string are both falsy. -/
def checkPermission (granted : List (String × Grant)) (action target : String)
    (permId : Option String) (now : Nat) : Bool :=
  match permId with
  | none => false
  | some pid =>
    if pid == "" then false
    else
      match granted.lookup pid with
      | none => false
      | some perm =>
        if perm.allowed == false then false
        else if perm.action != action then false
        else if expiresIsPast perm.expires now then false
        else
          let permTarget := perm.target
          if target == permTarget then true
          else if jsStartsWith target (permTarget ++ pathSep) then true
          else false

/-- The `request_permission` tool handler: reject excluded targets with
`Protected resource`, otherwise store a fresh Request, audit, and return
the request id. The fresh ids `reqId` and `aid` stand for `generateId()`
calls; `now` for `Date.now()`. -/
def request_permission (norm : String → String) (perms : Permissions)
    (action target requester : String) (now : Nat) (reqId aid : String) :
    Except McpErr (String × Permissions) :=
  if isExcluded norm target then
    .error protectedResource
  else
    let requests := objInsert perms.requests reqId ⟨action, target, requester, now⟩
    let log := auditPush aid "request_created"
      [("reqId", reqId), ("action", action), ("target", target), ("requester", requester)]
      now perms.audit
    .ok (reqId, ⟨perms.granted, requests, log⟩)

/-- `expires = duration === null || duration === undefined ? null
: Date.now() + duration * 1000` (duration in seconds, timestamps in ms). -/
def expiresOf (duration : Option Nat) (now : Nat) : Option Nat :=
  match duration with
  | none => none
  | some d => some (now + d * 1000)

/-- The `grant_permission` tool handler: fail with `Request not found` when
the request id is unknown, otherwise build the Grant from the Request,
delete the Request, audit, and return the permission id. -/
def grant_permission (perms : Permissions) (reqId granter : String)
    (duration : Option Nat) (now : Nat) (permId aid : String) :
    Except McpErr (String × Permissions) :=
  match perms.requests.lookup reqId with
  | none => .error requestNotFound
  | some req =>
    let g : Grant :=
      ⟨req.action, req.target, req.requester, req.created,
       granter, now, expiresOf duration now, true, none⟩
    let granted := objInsert perms.granted permId g
    let requests := objDelete perms.requests reqId
    let log := auditPush aid "granted"
      [("permId", permId), ("reqId", reqId), ("granter", granter)]
      now perms.audit
    .ok (permId, ⟨granted, requests, log⟩)

/-- The `revoke_permission` tool handler: fail with `Permission not found`
when the grant id is unknown, otherwise set `allowed = false`, stamp
`revoked`, and audit; the Grant record stays in the map. -/
def revoke_permission (perms : Permissions) (permId : String) (now : Nat)
    (aid : String) : Except McpErr (String × Permissions) :=
  match perms.granted.lookup permId with
  | none => .error permissionNotFound
  | some perm =>
    let granted := objInsert perms.granted permId
      { perm with allowed := false, revoked := some now }
    let log := auditPush aid "revoked" [("permId", permId)] now perms.audit
    .ok (permId, ⟨granted, perms.requests, log⟩)

/-- One call to the permission manager, with the nondeterministic inputs
(`Date.now()` values, fresh ids) recorded in the constructor. -/
inductive Op where
  | request (action target requester : String) (now : Nat) (reqId aid : String)
  | grant (reqId granter : String) (duration : Option Nat) (now : Nat) (permId aid : String)
  | revoke (permId : String) (now : Nat) (aid : String)
  | check (action target : String) (permId : Option String) (now : Nat)
  | listPerms
deriving DecidableEq, Repr

/-- The state transition of one manager call: a handler that throws leaves
the state unchanged; `check_permission` and `list_permissions` only read. -/
def step (norm : String → String) (op : Op) (perms : Permissions) : Permissions :=
  match op with
  | .request action target requester now reqId aid =>
    match request_permission norm perms action target requester now reqId aid with
    | .ok (_, p) => p
    | .error _ => perms
  | .grant reqId granter duration now permId aid =>
    match grant_permission perms reqId granter duration now permId aid with
    | .ok (_, p) => p
    | .error _ => perms
  | .revoke permId now aid =>
    match revoke_permission perms permId now aid with
    | .ok (_, p) => p
    | .error _ => perms
  | .check _ _ _ _ => perms
  | .listPerms => perms

/-- Run a sequence of manager calls. -/
def runOps (norm : String → String) (ops : List Op) (perms : Permissions) :
    Permissions :=
  ops.foldl (fun s op => step norm op s) perms

/-- The result record returned by `PermissionManager.checkPermission`:
`{allowed, level, expires}` with an optional `reason` on decline. -/
structure PermResult where
  allowed : Bool
  level : String
  expires : Option Nat
  reason : Option String
deriving DecidableEq, Repr

namespace PermissionManager

/-- The source's temporary `hasPermission(level, sessionId)` stub:
`return level === 'allow_action_session'`. -/
def hasPermissionStub (level : String) (sessionId : String) : Bool :=
  let _ := sessionId
  level == "allow_action_session"

/-- `PermissionManager.checkPermission(toolName, args)`: try
`always_allow_all`, then `allow_session` (1 h expiry), then
`allow_action_session` together with the `action:<toolName>` key (5 min
expiry), and otherwise decline. The membership predicate `hp` stands for
`this.hasPermission` (a stub in the source, see `hasPermissionStub`). -/
def checkPermission (hp : String → String → Bool) (toolName sessionId : String)
    (now : Nat) : PermResult :=
  if hp "always_allow_all" sessionId then
    ⟨true, "always_allow_all", none, none⟩
  else if hp "allow_session" sessionId then
    ⟨true, "allow_session", some (now + 3600000), none⟩
  else if hp "allow_action_session" sessionId &&
      hp ("action:" ++ toolName) sessionId then
    ⟨true, "allow_action_session", some (now + 300000), none⟩
  else
    ⟨false, "decline", none, some "No permission granted for this action"⟩

end PermissionManager

/-- A WebSocket client as the broadcast loop sees it: its `readyState`
(1 is OPEN) and the messages delivered to it so far. -/
structure Client where
  readyState : Nat
  inbox : List String
deriving DecidableEq, Repr

/-- The body of the `clients.forEach` in `broadcast`: send the serialized
message when `client.readyState === 1`, skip the client otherwise. -/
def sendTo (message : String) (c : Client) : Client :=
  if c.readyState == 1 then { c with inbox := c.inbox ++ [message] } else c

/-- `broadcast(data)`: serialize once (`stringify` stands for
`JSON.stringify`) and visit every client in the set independently. -/
def broadcast {α : Type} (stringify : α → String) (clients : List Client)
    (data : α) : List Client :=
  clients.map (sendTo (stringify data))

/-- `saveState()`: the snapshot write sits in a `try`/`catch` whose `catch`
only logs, so the routine returns normally whatever the write did.
`writeRes` is the outcome of `fs.writeJson`; the result is the log lines. -/
def saveState (writeRes : Except String Unit) : Unit × List String :=
  match writeRes with
  | .ok _ => ((), ["State saved successfully"])
  | .error e => ((), ["Failed to save state: " ++ e])

/-- The `request_permission` handler together with its trailing
`await saveState()`: the write receives the whole new state and its
outcome is swallowed by `saveState`. -/
def request_permissionPersisted (norm : String → String)
    (write : Permissions → Except String Unit) (perms : Permissions)
    (action target requester : String) (now : Nat) (reqId aid : String) :
    Except McpErr (String × Permissions × List String) :=
  match request_permission norm perms action target requester now reqId aid with
  | .error e => .error e
  | .ok (rid, p) => .ok (rid, p, (saveState (write p)).2)

/-- The `check_permission` predicate exactly as the spec words it, for
comparison with `checkPermission` from the source: true only if the Grant
exists, `allowed = true`, the action matches, `expires` is null or strictly
in the future (so `expires = now` counts as expired), and the target is the
Grant's target or nested under it. -/
def specCheckPermission (granted : List (String × Grant))
    (action target : String) (pid : String) (now : Nat) : Bool :=
  match granted.lookup pid with
  | none => false
  | some perm =>
    perm.allowed && (perm.action == action) &&
    (match perm.expires with
     | none => true
     | some e => decide (now < e)) &&
    ((target == perm.target) || jsStartsWith target (perm.target ++ pathSep))

/-- Replay of a sequence of audit writes through `auditPush`, starting
from the empty log. -/
def auditFold (es : List AuditEntry) : List AuditEntry :=
  es.foldl (fun l e => auditPush e.id e.event e.details e.ts l) []

/-- Invariant used for the empty-target safety claim: every stored Request
and Grant has a non-empty target. -/
def NoEmptyTargets (perms : Permissions) : Prop :=
  (∀ p ∈ perms.requests, (p : String × Request).2.target ≠ "") ∧
  (∀ p ∈ perms.granted, (p : String × Grant).2.target ≠ "")

/-- The grant used in the boundary counterexample: allowed, matching
action, `expires` exactly 1000. -/
def ceGrant : Grant :=
  ⟨"read_file", "/data/x.txt", "agentA", 0, "user", 0, some 1000, true, none⟩

/-- A one-request state used by concrete witnesses. -/
def w2perms : Permissions :=
  ⟨[], [("r1", ⟨"read_file", "/data/x.txt", "agentA", 0⟩)], []⟩

/-- Identity path normalization, used to instantiate the `path.normalize`
parameter on already-normalized concrete paths. -/
def idNorm : String → String := fun s => s

/-- The state reached from `w2perms` by granting request `r1` at time 5
with no duration (computed by evaluating `grant_permission`). -/
def w2perms1 : Permissions :=
  ⟨[("p1", ⟨"read_file", "/data/x.txt", "agentA", 0, "user", 5, none, true,
      none⟩)],
   [],
   [⟨"a1", "granted",
     [("permId", "p1"), ("reqId", "r1"), ("granter", "user")], 5⟩]⟩

theorem lookup_objInsert {α : Type} (m : List (String × α)) (k j : String)
    (v : α) :
    (objInsert m k v).lookup j = if j = k then some v else m.lookup j := by
  induction m with
  | nil =>
    simp only [objInsert, List.lookup_cons, List.lookup_nil]
    cases hbe : j == k with
    | false => simp [ne_of_beq_false hbe]
    | true => simp [eq_of_beq hbe]
  | cons p rest ih =>
    obtain ⟨k', v'⟩ := p
    simp only [objInsert]
    by_cases hk : (k' == k) = true
    · rw [if_pos hk]
      have hkk : k' = k := eq_of_beq hk
      subst hkk
      simp only [List.lookup_cons]
      cases hbe : j == k' with
      | false => simp [ne_of_beq_false hbe]
      | true => simp [eq_of_beq hbe]
    · rw [if_neg hk]
      have hkk : k' ≠ k := ne_of_beq_false (Bool.eq_false_iff.mpr hk)
      simp only [List.lookup_cons]
      cases hbe : j == k' with
      | false => simp [ih]
      | true =>
        have hj : j = k' := eq_of_beq hbe
        subst hj
        simp [if_neg hkk]

theorem lookup_objDelete_self {α : Type} (m : List (String × α)) (k : String) :
    (objDelete m k).lookup k = none := by
  induction m with
  | nil => rfl
  | cons p rest ih =>
    obtain ⟨k', v'⟩ := p
    by_cases h : k' = k
    · subst h
      have hne : (k' != k') = false := by simp
      simpa [objDelete, List.filter_cons, hne] using ih
    · have h1 : (k' != k) = true := by simp [h]
      have h2 : (k == k') = false :=
        beq_eq_false_iff_ne.mpr (fun he => h he.symm)
      simpa [objDelete, List.filter_cons, h1, List.lookup_cons, h2] using ih

theorem mem_of_lookup {α : Type} {m : List (String × α)} {k : String} {v : α}
    (h : m.lookup k = some v) : (k, v) ∈ m := by
  induction m with
  | nil => simp [List.lookup_nil] at h
  | cons p rest ih =>
    obtain ⟨k', v'⟩ := p
    rw [List.lookup_cons] at h
    cases hbe : k == k' with
    | false =>
      rw [hbe] at h
      exact List.mem_cons_of_mem _ (ih h)
    | true =>
      rw [hbe] at h
      have hk : k = k' := eq_of_beq hbe
      subst hk
      simp only [Option.some.injEq] at h
      subst h
      exact List.mem_cons_self _ _

theorem mem_objInsert {α : Type} {m : List (String × α)} {k : String} {v : α}
    {p : String × α} (h : p ∈ objInsert m k v) : p ∈ m ∨ p = (k, v) := by
  induction m with
  | nil =>
    simp only [objInsert, List.mem_singleton] at h
    exact Or.inr h
  | cons q rest ih =>
    obtain ⟨k', v'⟩ := q
    simp only [objInsert] at h
    by_cases hk : (k' == k) = true
    · rw [if_pos hk] at h
      rcases List.mem_cons.mp h with h | h
      · exact Or.inr h
      · exact Or.inl (List.mem_cons_of_mem _ h)
    · rw [if_neg hk] at h
      rcases List.mem_cons.mp h with h | h
      · exact Or.inl (h ▸ List.mem_cons_self _ _)
      · rcases ih h with h' | h'
        · exact Or.inl (List.mem_cons_of_mem _ h')
        · exact Or.inr h'

theorem mem_objDelete {α : Type} {m : List (String × α)} {k : String}
    {p : String × α} (h : p ∈ objDelete m k) : p ∈ m :=
  List.mem_of_mem_filter h

theorem expiresIsPast_eq_false_iff (expires : Option Nat) (now : Nat) :
    expiresIsPast expires now = false ↔
      (expires = none ∨ expires = some 0 ∨ ∃ e, expires = some e ∧ now ≤ e) := by
  cases expires with
  | none => simp [expiresIsPast]
  | some e =>
    by_cases h0 : e = 0
    · simp [expiresIsPast, h0]
    · by_cases hlt : e < now
      · simp only [expiresIsPast, Option.some.injEq]
        constructor
        · intro h
          simp [h0, hlt] at h
        · rintro (h | h | ⟨e', he', hle⟩)
          · exact absurd h (by simp)
          · exact absurd h h0
          · cases he'; omega
      · simp only [expiresIsPast, Option.some.injEq]
        constructor
        · intro _
          exact Or.inr (Or.inr ⟨e, rfl, Nat.le_of_not_lt hlt⟩)
        · intro _
          simp [hlt]

/-- Claim C1 (amended): `checkPermission(action, target, permId)` returns
true iff the grant id is non-falsy, a Grant with that id exists, its
`allowed` flag is true, its action equals the requested action exactly, its
`expires` is null, numerically falsy, or not yet past — a grant whose
`expires` equals the current time is still honored, not treated as expired
— and the target equals the Grant's target or extends it by the path
separator; a missing grant id yields false. -/
theorem check_permission_characterization (granted : List (String × Grant))
    (action target pid : String) (now : Nat) :
    (checkPermission granted action target none now = false) ∧
    (checkPermission granted action target (some pid) now = true ↔
      pid ≠ "" ∧ ∃ perm, granted.lookup pid = some perm ∧
        perm.allowed = true ∧ perm.action = action ∧
        (perm.expires = none ∨ perm.expires = some 0 ∨
          ∃ e, perm.expires = some e ∧ now ≤ e) ∧
        (target = perm.target ∨
          jsStartsWith target (perm.target ++ pathSep) = true)) := by
  refine ⟨rfl, ?_⟩
  simp only [checkPermission]
  cases hbe : pid == "" with
  | true =>
    have hp : pid = "" := eq_of_beq hbe
    simp [hp]
  | false =>
    have hpne : pid ≠ "" := ne_of_beq_false hbe
    simp only [Bool.false_eq_true, if_false, hpne, ne_eq, not_false_eq_true,
      true_and]
    cases hl : granted.lookup pid with
    | none => simp
    | some perm =>
      simp only [Option.some.injEq]
      constructor
      · intro h
        by_cases hal : perm.allowed = false
        · simp [hal] at h
        · have hal' : perm.allowed = true := by
            revert hal; cases perm.allowed <;> simp
          rw [if_neg (by simp [hal'])] at h
          by_cases hac : (perm.action != action) = true
          · rw [if_pos hac] at h
            exact absurd h (by simp)
          · rw [if_neg hac] at h
            have hac' : perm.action = action := by simpa using hac
            by_cases hexp : expiresIsPast perm.expires now = true
            · rw [if_pos hexp] at h
              exact absurd h (by simp)
            · rw [if_neg hexp] at h
              have hexp' := (expiresIsPast_eq_false_iff perm.expires now).mp
                (Bool.not_eq_true _ ▸ hexp)
              refine ⟨perm, rfl, hal', hac', hexp', ?_⟩
              by_cases ht : (target == perm.target) = true
              · exact Or.inl (eq_of_beq ht)
              · rw [if_neg ht] at h
                by_cases hs : jsStartsWith target (perm.target ++ pathSep) = true
                · exact Or.inr hs
                · rw [if_neg hs] at h
                  exact absurd h (by simp)
      · rintro ⟨perm', hp', hal, hac, hexp, ht⟩
        cases hp'
        have h1 : ¬ (perm.allowed == false) = true := by simp [hal]
        rw [if_neg h1]
        have h2 : ¬ (perm.action != action) = true := by simp [hac]
        rw [if_neg h2]
        have h3 : ¬ expiresIsPast perm.expires now = true := by
          simp [(expiresIsPast_eq_false_iff perm.expires now).mpr hexp]
        rw [if_neg h3]
        rcases ht with ht | ht
        · rw [if_pos (by simp [ht])]
        · by_cases hteq : (target == perm.target) = true
          · rw [if_pos hteq]
          · rw [if_neg hteq, if_pos ht]

/-- Claim C1, counterexample to the claim as stated: a Grant whose
`expires` equals the current time is still accepted by the code
(`checkPermission` is true), while the claimed predicate — which treats
`expires == now` as expired — is false on the same input. -/
theorem check_permission_boundary_counterexample :
    checkPermission [("g1", ceGrant)] "read_file" "/data/x.txt"
      (some "g1") 1000 = true ∧
    specCheckPermission [("g1", ceGrant)] "read_file" "/data/x.txt"
      "g1" 1000 = false :=
  ⟨rfl, rfl⟩

/-- Claim C2: a successful `grant_permission` consumes the Request, so a
second `grant_permission` with the same request id fails with
`Request not found` and, as a step of the manager, leaves the permission
state unchanged. -/
theorem grant_permission_single_use (norm : String → String)
    (perms perms1 : Permissions) (reqId granter granter2 : String)
    (d d2 : Option Nat) (now now2 : Nat) (permId aid permId2 aid2 rid : String)
    (h : grant_permission perms reqId granter d now permId aid =
      .ok (rid, perms1)) :
    grant_permission perms1 reqId granter2 d2 now2 permId2 aid2 =
      .error requestNotFound ∧
    step norm (Op.grant reqId granter2 d2 now2 permId2 aid2) perms1 = perms1 := by
  have hreq : perms1.requests.lookup reqId = none := by
    cases hl : perms.requests.lookup reqId with
    | none => simp [grant_permission, hl] at h
    | some req =>
      simp only [grant_permission, hl, Except.ok.injEq, Prod.mk.injEq] at h
      obtain ⟨-, h2⟩ := h
      rw [← h2]
      exact lookup_objDelete_self _ _
  exact ⟨by simp [grant_permission, hreq],
    by simp [step, grant_permission, hreq]⟩

/-- Claim C2, witness: granting request `r1` of `w2perms` once yields
`w2perms1`; a second grant of `r1` fails with `Request not found` and does
not change the state. -/
theorem grant_permission_single_use_witness :
    grant_permission w2perms1 "r1" "u2" none 9 "p2" "a2" =
      .error requestNotFound ∧
    step idNorm (Op.grant "r1" "u2" none 9 "p2" "a2") w2perms1 = w2perms1 :=
  grant_permission_single_use idNorm w2perms w2perms1 "r1" "user" "u2" none
    none 5 9 "p1" "a1" "p2" "a2" "p1" (by rfl)

/-- Claim C3: `request_permission` on an excluded target throws
`Protected resource` and changes nothing; on a non-excluded target it
stores the Request under the fresh id, leaves grants unchanged, appends
one audit entry, attempts to persist the whole new state, and returns the
request id. -/
theorem request_permission_excluded_or_created (norm : String → String)
    (perms : Permissions) (action target requester : String) (now : Nat)
    (reqId aid : String) :
    (isExcluded norm target = true →
      request_permission norm perms action target requester now reqId aid =
        .error protectedResource ∧
      step norm (Op.request action target requester now reqId aid) perms =
        perms) ∧
    (isExcluded norm target = false →
      ∃ p, request_permission norm perms action target requester now reqId aid
          = .ok (reqId, p) ∧
        p.requests.lookup reqId = some ⟨action, target, requester, now⟩ ∧
        p.granted = perms.granted ∧
        p.audit = auditPush aid "request_created"
          [("reqId", reqId), ("action", action), ("target", target),
           ("requester", requester)] now perms.audit ∧
        ∀ write, request_permissionPersisted norm write perms action target
            requester now reqId aid =
          .ok (reqId, p, (saveState (write p)).2)) := by
  constructor
  · intro hex
    exact ⟨by simp [request_permission, hex],
      by simp [step, request_permission, hex]⟩
  · intro hex
    refine ⟨⟨perms.granted,
      objInsert perms.requests reqId ⟨action, target, requester, now⟩,
      auditPush aid "request_created"
        [("reqId", reqId), ("action", action), ("target", target),
         ("requester", requester)] now perms.audit⟩,
      by simp [request_permission, hex], ?_, rfl, rfl, ?_⟩
    · simp [lookup_objInsert]
    · intro write
      simp [request_permissionPersisted, request_permission, hex]

/-- Claim C3, witness: a target inside the `/windows` exclusion zone is
rejected with no state change, while `/data/x.txt` produces a stored
Request, one audit entry, and the fresh request id. -/
theorem request_permission_excluded_or_created_witness :
    (request_permission idNorm initPerms "read_file" "/windows/system.ini"
        "agentA" 3 "rq" "au" = .error protectedResource ∧
      step idNorm
        (Op.request "read_file" "/windows/system.ini" "agentA" 3 "rq" "au")
        initPerms = initPerms) ∧
    (∃ p, request_permission idNorm initPerms "read_file" "/data/x.txt"
          "agentA" 3 "rq" "au" = .ok ("rq", p) ∧
        p.requests.lookup "rq" = some ⟨"read_file", "/data/x.txt", "agentA", 3⟩ ∧
        p.granted = initPerms.granted ∧
        p.audit = auditPush "au" "request_created"
          [("reqId", "rq"), ("action", "read_file"),
           ("target", "/data/x.txt"), ("requester", "agentA")] 3
          initPerms.audit ∧
        ∀ write, request_permissionPersisted idNorm write initPerms
            "read_file" "/data/x.txt" "agentA" 3 "rq" "au" =
          .ok ("rq", p, (saveState (write p)).2)) :=
  ⟨(request_permission_excluded_or_created idNorm initPerms "read_file"
      "/windows/system.ini" "agentA" 3 "rq" "au").1 (by rfl),
   (request_permission_excluded_or_created idNorm initPerms "read_file"
      "/data/x.txt" "agentA" 3 "rq" "au").2 (by rfl)⟩

/-- Claim C4: granting an existing Request creates a Grant that copies its
action, target and requester, computes `expires` from the optional
duration in seconds (absent duration gives a never-expiring grant), and
returns the new grant id; with duration 300 the granted action/target pass
`checkPermission` at grant time and fail at every instant strictly after
300 seconds have elapsed. -/
theorem grant_permission_creates_grant (perms : Permissions) (reqId : String)
    (req : Request) (granter : String) (d : Option Nat) (now : Nat)
    (permId aid : String)
    (h : perms.requests.lookup reqId = some req) (hp : permId ≠ "") :
    ∃ p, grant_permission perms reqId granter d now permId aid =
        .ok (permId, p) ∧
      p.granted.lookup permId = some
        ⟨req.action, req.target, req.requester, req.created, granter, now,
         expiresOf d now, true, none⟩ ∧
      (d = some 300 →
        checkPermission p.granted req.action req.target (some permId) now
          = true ∧
        ∀ t, now + 300 * 1000 < t →
          checkPermission p.granted req.action req.target (some permId) t
            = false) := by
  refine ⟨⟨objInsert perms.granted permId
      ⟨req.action, req.target, req.requester, req.created, granter, now,
       expiresOf d now, true, none⟩,
      objDelete perms.requests reqId,
      auditPush aid "granted"
        [("permId", permId), ("reqId", reqId), ("granter", granter)]
        now perms.audit⟩,
    by simp [grant_permission, h], by simp [lookup_objInsert], ?_⟩
  rintro rfl
  have hpb : (permId == "") = false := beq_eq_false_iff_ne.mpr hp
  have hlk := lookup_objInsert perms.granted permId permId
    (⟨req.action, req.target, req.requester, req.created, granter, now,
      expiresOf (some 300) now, true, none⟩ : Grant)
  rw [if_pos rfl] at hlk
  simp only [expiresOf] at hlk
  constructor
  · have hnl : ¬ (now + 300000 < now) := by omega
    simp [checkPermission, hpb, hlk, expiresIsPast, expiresOf, hnl]
  · intro t ht
    have ht' : now + 300000 < t := by omega
    have hne : now + 300000 ≠ 0 := by omega
    simp [checkPermission, hpb, hlk, expiresIsPast, expiresOf, hne, ht']

/-- Claim C4, witness: the spec scenario with request `r1`
(`read_file` on `/data/x.txt` by `agentA`) granted at time 1000 for 300
seconds. -/
theorem grant_permission_creates_grant_witness :
    ∃ p, grant_permission w2perms "r1" "user" (some 300) 1000 "p1" "a1" =
        .ok ("p1", p) ∧
      p.granted.lookup "p1" = some
        ⟨"read_file", "/data/x.txt", "agentA", 0, "user", 1000,
         expiresOf (some 300) 1000, true, none⟩ ∧
      (some 300 = some 300 →
        checkPermission p.granted "read_file" "/data/x.txt" (some "p1") 1000
          = true ∧
        ∀ t, 1000 + 300 * 1000 < t →
          checkPermission p.granted "read_file" "/data/x.txt" (some "p1") t
            = false) :=
  grant_permission_creates_grant w2perms "r1"
    ⟨"read_file", "/data/x.txt", "agentA", 0⟩ "user" (some 300) 1000 "p1"
    "a1" (by rfl) (by decide)

theorem isSome_lookup_objInsert {α : Type} (m : List (String × α))
    (k k' : String) (v : α) (h : (m.lookup k).isSome = true) :
    ((objInsert m k' v).lookup k).isSome = true := by
  rw [lookup_objInsert]
  by_cases hk : k = k' <;> simp [hk, h]

theorem step_preserves_granted (norm : String → String) (op : Op)
    (perms : Permissions) (k : String)
    (h : (perms.granted.lookup k).isSome = true) :
    ((step norm op perms).granted.lookup k).isSome = true := by
  cases op with
  | request action target requester now reqId aid =>
    cases hex : isExcluded norm target with
    | true => simpa [step, request_permission, hex] using h
    | false => simpa [step, request_permission, hex] using h
  | grant reqId granter duration now permId aid =>
    cases hl : perms.requests.lookup reqId with
    | none => simpa [step, grant_permission, hl] using h
    | some req =>
      simp only [step, grant_permission, hl]
      exact isSome_lookup_objInsert _ _ _ _ h
  | revoke permId now aid =>
    cases hl : perms.granted.lookup permId with
    | none => simpa [step, revoke_permission, hl] using h
    | some perm =>
      simp only [step, revoke_permission, hl]
      exact isSome_lookup_objInsert _ _ _ _ h
  | check action target permId now => simpa [step] using h
  | listPerms => simpa [step] using h

/-- Claim C5: `revoke_permission` fails on an unknown grant id; on a known
one it sets `allowed := false`, stamps `revoked`, and keeps the record
stored; and over every sequence of manager calls the set of stored grant
ids never loses a member. -/
theorem grants_never_hard_deleted (norm : String → String) (ops : List Op)
    (perms : Permissions) (k : String)
    (h : (perms.granted.lookup k).isSome = true) :
    ((runOps norm ops perms).granted.lookup k).isSome = true ∧
    (∀ pid now aid, perms.granted.lookup pid = none →
      revoke_permission perms pid now aid = .error permissionNotFound) ∧
    (∀ pid perm now aid, perms.granted.lookup pid = some perm →
      ∃ p, revoke_permission perms pid now aid = .ok (pid, p) ∧
        p.granted.lookup pid = some
          { perm with allowed := false, revoked := some now } ∧
        p.requests = perms.requests) := by
  refine ⟨?_, ?_, ?_⟩
  · induction ops generalizing perms with
    | nil => exact h
    | cons op rest ih =>
      exact ih (step norm op perms) (step_preserves_granted norm op perms k h)
  · intro pid now aid hl
    simp [revoke_permission, hl]
  · intro pid perm now aid hl
    refine ⟨⟨objInsert perms.granted pid
        { perm with allowed := false, revoked := some now },
      perms.requests,
      auditPush aid "revoked" [("permId", pid)] now perms.audit⟩,
      by simp [revoke_permission, hl], ?_, rfl⟩
    simp [lookup_objInsert]

/-- Claim C5, witness: grant `p1` of `w2perms1` survives a revoke, a new
request, and a new grant; revoking the unknown `nope` fails; revoking `p1`
soft-disables it in place. -/
theorem grants_never_hard_deleted_witness :
    ((runOps idNorm
        [Op.revoke "p1" 7 "a3",
         Op.request "write_file" "/tmp/y.txt" "agentB" 8 "r9" "a4",
         Op.grant "r9" "user" none 9 "p9" "a5"] w2perms1).granted.lookup
      "p1").isSome = true ∧
    (∀ pid now aid, w2perms1.granted.lookup pid = none →
      revoke_permission w2perms1 pid now aid = .error permissionNotFound) ∧
    (∀ pid perm now aid, w2perms1.granted.lookup pid = some perm →
      ∃ p, revoke_permission w2perms1 pid now aid = .ok (pid, p) ∧
        p.granted.lookup pid = some
          { perm with allowed := false, revoked := some now } ∧
        p.requests = w2perms1.requests) :=
  grants_never_hard_deleted idNorm
    [Op.revoke "p1" 7 "a3",
     Op.request "write_file" "/tmp/y.txt" "agentB" 8 "r9" "a4",
     Op.grant "r9" "user" none 9 "p9" "a5"] w2perms1 "p1" (by rfl)

theorem auditPush_suffix_step (id : String) (event : String)
    (details : List (String × String)) (ts : Nat) (log h : List AuditEntry)
    (hs : List.IsSuffix log h) :
    List.IsSuffix (auditPush id event details ts log)
      (h ++ [⟨id, event, details, ts⟩]) ∧
    (auditPush id event details ts log).length ≤ 1000 := by
  obtain ⟨t, ht⟩ := hs
  have h1 : List.IsSuffix (log ++ [(⟨id, event, details, ts⟩ : AuditEntry)])
      (h ++ [⟨id, event, details, ts⟩]) :=
    ⟨t, by rw [← List.append_assoc, ht]⟩
  simp only [auditPush]
  by_cases hb : (log ++ [(⟨id, event, details, ts⟩ : AuditEntry)]).length > 1000
  · rw [if_pos hb]
    constructor
    · exact List.IsSuffix.trans (List.drop_suffix _ _) h1
    · rw [List.length_drop]
      omega
  · rw [if_neg hb]
    exact ⟨h1, by omega⟩

theorem auditFold_aux (es : List AuditEntry) (log h : List AuditEntry)
    (hs : List.IsSuffix log h) (hl : log.length ≤ 1000) :
    List.IsSuffix
      (es.foldl (fun l e => auditPush e.id e.event e.details e.ts l) log)
      (h ++ es) ∧
    (es.foldl (fun l e => auditPush e.id e.event e.details e.ts l) log).length
      ≤ 1000 := by
  induction es generalizing log h with
  | nil => simpa using ⟨hs, hl⟩
  | cons e rest ih =>
    obtain ⟨h1, h2⟩ := auditPush_suffix_step e.id e.event e.details e.ts log h hs
    have h3 := ih (auditPush e.id e.event e.details e.ts log) (h ++ [e]) h1 h2
    simpa [List.append_assoc] using h3

/-- Claim C6: replaying any sequence of audit writes from the empty log
leaves a log that is a contiguous suffix, in insertion order, of all
entries ever appended, of length at most the 1000-entry cap; and each
single write puts its entry at the end of the log. -/
theorem audit_log_capped_suffix (es : List AuditEntry) :
    List.IsSuffix (auditFold es) es ∧
    (auditFold es).length ≤ 1000 ∧
    (∀ id event details ts log, ∃ pre,
      auditPush id event details ts log =
        pre ++ [⟨id, event, details, ts⟩]) := by
  obtain ⟨h1, h2⟩ := auditFold_aux es [] [] ⟨[], rfl⟩ (by simp)
  refine ⟨by simpa using h1, h2, ?_⟩
  intro id event details ts log
  simp only [auditPush]
  by_cases hb : (log ++ [(⟨id, event, details, ts⟩ : AuditEntry)]).length > 1000
  · rw [if_pos hb]
    have hlen : (log ++ [(⟨id, event, details, ts⟩ : AuditEntry)]).length
        - 500 - log.length = 0 := by
      simp only [List.length_append, List.length_singleton] at hb ⊢
      omega
    refine ⟨log.drop
      ((log ++ [(⟨id, event, details, ts⟩ : AuditEntry)]).length - 500), ?_⟩
    rw [List.drop_append_eq_append_drop, hlen, List.drop_zero]
  · rw [if_neg hb]
    exact ⟨log, rfl⟩

/-- Claim C7: `PermissionManager.checkPermission` evaluates its levels in
the fixed precedence order `always_allow_all`, `allow_session`,
`allow_action_session` with the matching `action:<toolName>` key, then
decline; the first level the membership predicate accepts wins and the
result carries that level's expiry (never, 1 hour, 5 minutes). -/
theorem session_level_precedence (hp : String → String → Bool)
    (toolName sessionId : String) (now : Nat) :
    (hp "always_allow_all" sessionId = true →
      PermissionManager.checkPermission hp toolName sessionId now =
        ⟨true, "always_allow_all", none, none⟩) ∧
    (hp "always_allow_all" sessionId = false →
      hp "allow_session" sessionId = true →
      PermissionManager.checkPermission hp toolName sessionId now =
        ⟨true, "allow_session", some (now + 3600000), none⟩) ∧
    (hp "always_allow_all" sessionId = false →
      hp "allow_session" sessionId = false →
      hp "allow_action_session" sessionId = true →
      hp ("action:" ++ toolName) sessionId = true →
      PermissionManager.checkPermission hp toolName sessionId now =
        ⟨true, "allow_action_session", some (now + 300000), none⟩) ∧
    (hp "always_allow_all" sessionId = false →
      hp "allow_session" sessionId = false →
      (hp "allow_action_session" sessionId = false ∨
        hp ("action:" ++ toolName) sessionId = false) →
      PermissionManager.checkPermission hp toolName sessionId now =
        ⟨false, "decline", none,
         some "No permission granted for this action"⟩) := by
  refine ⟨?_, ?_, ?_, ?_⟩
  · intro h1
    simp [PermissionManager.checkPermission, h1]
  · intro h1 h2
    simp [PermissionManager.checkPermission, h1, h2]
  · intro h1 h2 h3 h4
    simp [PermissionManager.checkPermission, h1, h2, h3, h4]
  · intro h1 h2 h3
    rcases h3 with h3 | h3 <;>
      simp [PermissionManager.checkPermission, h1, h2, h3]

/-- Claim C7, witness: under a membership predicate that accepts exactly
`allow_session`, evaluation at time 50 returns the `allow_session` level
with a one-hour expiry. -/
theorem session_level_precedence_witness :
    (fun level _ => level == "allow_session") "always_allow_all" "s"
      = false ∧
    (fun level _ => level == "allow_session") "allow_session" "s" = true ∧
    PermissionManager.checkPermission
      (fun level _ => level == "allow_session") "read_file" "s" 50 =
      ⟨true, "allow_session", some (50 + 3600000), none⟩ :=
  ⟨rfl, rfl,
    (session_level_precedence (fun level _ => level == "allow_session")
      "read_file" "s" 50).2.1 rfl rfl⟩

/-- Claim C8: `broadcast` visits each client independently — the message
seen at position `i` depends only on the client at position `i`, so a
disconnected or non-open client elsewhere in the set cannot affect
delivery; every client whose `readyState` is open receives the message. -/
theorem broadcast_per_client_isolation {α : Type} (stringify : α → String)
    (data : α) (cs cs' : List Client) (i : Nat)
    (h : cs[i]? = cs'[i]?) :
    (broadcast stringify cs data)[i]? = (broadcast stringify cs' data)[i]? ∧
    (∀ c, cs[i]? = some c → c.readyState = 1 →
      (broadcast stringify cs data)[i]? =
        some { c with inbox := c.inbox ++ [stringify data] }) := by
  constructor
  · simp [broadcast, List.getElem?_map, h]
  · intro c hc h1
    simp [broadcast, List.getElem?_map, hc, sendTo, h1]

/-- Claim C8, witness: the open client at position 2 receives the event
whether the sibling clients are open (`readyState` 1) or closed
(`readyState` 3). -/
theorem broadcast_per_client_isolation_witness :
    (broadcast id [⟨1, []⟩, ⟨3, []⟩, ⟨1, []⟩] "ev")[2]? =
      (broadcast id [⟨3, []⟩, ⟨1, []⟩, ⟨1, []⟩] "ev")[2]? ∧
    (∀ c, ([⟨1, []⟩, ⟨3, []⟩, ⟨1, []⟩] : List Client)[2]? = some c →
      c.readyState = 1 →
      (broadcast id [⟨1, []⟩, ⟨3, []⟩, ⟨1, []⟩] "ev")[2]? =
        some { c with inbox := c.inbox ++ [id "ev"] }) :=
  broadcast_per_client_isolation id "ev"
    [⟨1, []⟩, ⟨3, []⟩, ⟨1, []⟩] [⟨3, []⟩, ⟨1, []⟩, ⟨1, []⟩] 2 rfl

/-- Claim C9: a snapshot-write failure is swallowed and logged inside
`saveState`, the handler's visible outcome (result and new state) is the
same for any write outcome, and on success the write is attempted on the
entire new state. -/
theorem persistence_failure_isolated (norm : String → String)
    (w w' : Permissions → Except String Unit) (perms : Permissions)
    (action target requester : String) (now : Nat) (reqId aid : String) :
    ((request_permissionPersisted norm w perms action target requester now
        reqId aid).map (fun r => (r.1, r.2.1)) =
      (request_permissionPersisted norm w' perms action target requester now
        reqId aid).map (fun r => (r.1, r.2.1))) ∧
    (∀ e, saveState (.error e) = ((), ["Failed to save state: " ++ e])) ∧
    (∀ rid p logs,
      request_permissionPersisted norm w perms action target requester now
        reqId aid = .ok (rid, p, logs) →
      logs = (saveState (w p)).2) := by
  refine ⟨?_, fun e => rfl, ?_⟩
  · cases hr : request_permission norm perms action target requester now
        reqId aid with
    | error e => simp [request_permissionPersisted, hr]
    | ok r => simp [request_permissionPersisted, hr, Except.map]
  · intro rid p logs hok
    cases hr : request_permission norm perms action target requester now
        reqId aid with
    | error e => simp [request_permissionPersisted, hr] at hok
    | ok r =>
      obtain ⟨rid', p'⟩ := r
      simp only [request_permissionPersisted, hr, Except.ok.injEq,
        Prod.mk.injEq] at hok
      obtain ⟨-, h2, h3⟩ := hok
      rw [← h2, ← h3]

/-- Claim C9, witness: with a write that always fails with `disk full`,
the successful `request_permission` call returns the failure log that
`saveState` produced for the new state. -/
theorem persistence_failure_isolated_witness :
    (["Failed to save state: disk full"] : List String) =
      (saveState (Except.error "disk full")).2 :=
  (persistence_failure_isolated idNorm (fun _ => .error "disk full")
    (fun _ => .ok ()) initPerms "read_file" "/data/x.txt" "agentA" 3 "rq"
    "au").2.2 "rq"
    ⟨[], [("rq", ⟨"read_file", "/data/x.txt", "agentA", 3⟩)],
     [⟨"au", "request_created",
       [("reqId", "rq"), ("action", "read_file"),
        ("target", "/data/x.txt"), ("requester", "agentA")], 3⟩]⟩
    ["Failed to save state: disk full"] (by rfl)

theorem target_nonempty_of_not_excluded (norm : String → String)
    (target : String) (h : isExcluded norm target = false) : target ≠ "" := by
  intro he
  subst he
  simp [isExcluded] at h

theorem step_preserves_noEmptyTargets (norm : String → String) (op : Op)
    (perms : Permissions) (h : NoEmptyTargets perms) :
    NoEmptyTargets (step norm op perms) := by
  obtain ⟨hreq, hgr⟩ := h
  cases op with
  | request action target requester now reqId aid =>
    cases hex : isExcluded norm target with
    | true => exact ⟨by simpa [step, request_permission, hex] using hreq,
        by simpa [step, request_permission, hex] using hgr⟩
    | false =>
      simp only [step, request_permission, hex, Bool.false_eq_true, if_false]
      refine ⟨?_, hgr⟩
      intro p hp
      rcases mem_objInsert hp with hm | hm
      · exact hreq p hm
      · rw [hm]
        exact target_nonempty_of_not_excluded norm target hex
  | grant reqId granter duration now permId aid =>
    cases hl : perms.requests.lookup reqId with
    | none => exact ⟨by simpa [step, grant_permission, hl] using hreq,
        by simpa [step, grant_permission, hl] using hgr⟩
    | some req =>
      simp only [step, grant_permission, hl]
      constructor
      · intro p hp
        exact hreq p (mem_objDelete hp)
      · intro p hp
        rcases mem_objInsert hp with hm | hm
        · exact hgr p hm
        · rw [hm]
          exact hreq (reqId, req) (mem_of_lookup hl)
  | revoke permId now aid =>
    cases hl : perms.granted.lookup permId with
    | none => exact ⟨by simpa [step, revoke_permission, hl] using hreq,
        by simpa [step, revoke_permission, hl] using hgr⟩
    | some perm =>
      simp only [step, revoke_permission, hl]
      refine ⟨hreq, ?_⟩
      intro p hp
      rcases mem_objInsert hp with hm | hm
      · exact hgr p hm
      · rw [hm]
        exact hgr (permId, perm) (mem_of_lookup hl)
  | check action target permId now => exact ⟨hreq, hgr⟩
  | listPerms => exact ⟨hreq, hgr⟩

theorem runOps_noEmptyTargets (norm : String → String) (ops : List Op) :
    NoEmptyTargets (runOps norm ops initPerms) := by
  have hinit : NoEmptyTargets initPerms := by
    constructor <;> intro p hp <;> simp [initPerms] at hp
  suffices hgen : ∀ perms, NoEmptyTargets perms →
      NoEmptyTargets (runOps norm ops perms) from hgen initPerms hinit
  induction ops with
  | nil => intro perms h; exact h
  | cons op rest ih =>
    intro perms h
    exact ih (step norm op perms) (step_preserves_noEmptyTargets norm op perms h)

/-- Claim C10: a falsy (empty) target is always treated as excluded, so
`request_permission` rejects it with `Protected resource` and no state
change, and in every state reachable by manager calls from the initial
state no stored Request or Grant has an empty target — hence no grant
arising from such a request can ever exist for `checkPermission` to
accept. -/
theorem empty_target_never_stored (norm : String → String) (ops : List Op) :
    (∀ perms action requester now reqId aid,
      request_permission norm perms action "" requester now reqId aid =
        .error protectedResource ∧
      step norm (Op.request action "" requester now reqId aid) perms =
        perms) ∧
    (∀ k r, (runOps norm ops initPerms).requests.lookup k = some r →
      r.target ≠ "") ∧
    (∀ k g, (runOps norm ops initPerms).granted.lookup k = some g →
      g.target ≠ "") := by
  obtain ⟨hreq, hgr⟩ := runOps_noEmptyTargets norm ops
  refine ⟨?_, ?_, ?_⟩
  · intro perms action requester now reqId aid
    exact ⟨by simp [request_permission, isExcluded],
      by simp [step, request_permission, isExcluded]⟩
  · intro k r hl
    exact hreq (k, r) (mem_of_lookup hl)
  · intro k g hl
    exact hgr (k, g) (mem_of_lookup hl)

/-- Claim C10, witness: an empty target is rejected as a protected
resource and leaves the initial state untouched. -/
theorem empty_target_never_stored_witness :
    request_permission idNorm initPerms "read_file" "" "agentA" 4 "r0" "a0" =
      .error protectedResource ∧
    step idNorm (Op.request "read_file" "" "agentA" 4 "r0" "a0") initPerms =
      initPerms :=
  (empty_target_never_stored idNorm []).1 initPerms "read_file" "agentA" 4
    "r0" "a0"

end EchoGateway
